import Mathlib

/-! Ticker (esp8266 core for Arduino): a verification development.

Embedding of `libraries/Ticker/src/Ticker.h`.

* Section 1: the C++ `float` to `uint32_t` path of `1000UL * seconds`
  (binary32 product, conversion by truncation), over integers.
* Section 2: callables, the external timer and deferred-execution
  facilities, the adapter state.
* Section 3: the registration overloads of the header, one definition each.
* Section 4: the members whose bodies are not in the header, and the
  observations the theorems are stated with.
* Section 5: lemmas on the binary32 conversion.
* Section 6: the theorems on registration, firing and deferred execution.

Conventions: a `uint32_t` is a `Nat` (the header does no arithmetic on it);
a user callable acts on a user world `W`; each lambda expression of the header
is one constructor holding its captured variables.
-/

set_option autoImplicit false

/-! ## 1. binary32 arithmetic of `1000UL * seconds` -/

/-- A binary32 value: `finite neg mant exp` is `(-1)^neg * mant * 2^exp`. -/
inductive F32 where
  | finite (neg : Bool) (mant : Nat) (exp : Int)
  | inf (neg : Bool)
  | nan
  deriving DecidableEq, Repr

namespace F32

/-- The representable finite values: 24 bits of significand, exponent of the
last place between -149 and 104. -/
def wf : F32 → Prop
  | finite _ mant exp => mant < 2 ^ 24 ∧ -149 ≤ exp ∧ exp ≤ 104
  | inf _ => True
  | nan => True

instance (s : F32) : Decidable (wf s) := by
  cases s <;> unfold wf <;> infer_instance

/-- Number of low bits to drop so that `M` fits in 24 bits (`fuel` bounds the
recursion; `fuel = M` always suffices). -/
def dropBits : Nat → Nat → Nat
  | 0, _ => 0
  | fuel + 1, M => if M < 2 ^ 24 then 0 else dropBits fuel (M / 2) + 1

/-- Division of `M` by `2^k`, rounded to nearest, ties to even. -/
def roundShift (M k : Nat) : Nat :=
  let q := M / 2 ^ k
  let r := M % 2 ^ k
  if 2 ^ k < 2 * r ∨ (2 * r = 2 ^ k ∧ q % 2 = 1) then q + 1 else q

/-- The binary32 value nearest to the exact `(-1)^neg * M * 2^e`, for
`-149 ≤ e` (round to nearest, ties to even; overflow gives infinity). -/
def round (neg : Bool) (M : Nat) (e : Int) : F32 :=
  let k := dropBits M M
  let m := roundShift M k
  let e1 := e + (k : Int)
  if m = 2 ^ 24 then
    (if 104 ≤ e1 then inf neg else finite neg (2 ^ 23) (e1 + 1))
  else
    (if 104 < e1 then inf neg else finite neg m e1)

/-- Product `c * s` in binary32, for an integer constant `c` that is exactly
representable (`0 < c < 2^24`), as in `1000UL * seconds`. -/
def mulConst (c : Nat) : F32 → F32
  | finite neg mant exp => round neg (c * mant) exp
  | inf neg => inf neg
  | nan => nan

/-- The magnitude `mant * 2^exp` with the fractional part discarded. -/
def truncMag (mant : Nat) (exp : Int) : Nat :=
  if 0 ≤ exp then mant * 2 ^ exp.toNat else mant / 2 ^ (-exp).toNat

/-- Conversion of a `float` to `uint32_t`: the fractional part is discarded;
`none` where C++ leaves the conversion undefined (NaN, infinities, truncated
value outside `0 .. 2^32 - 1`). -/
def toUInt32 : F32 → Option Nat
  | finite neg mant exp =>
    if neg then (if truncMag mant exp = 0 then some 0 else none)
    else (if truncMag mant exp < 2 ^ 32 then some (truncMag mant exp) else none)
  | inf _ => none
  | nan => none

/-- The argument `1000UL * seconds` as received by a `uint32_t` parameter. -/
def secondsToMs (seconds : F32) : Option Nat :=
  toUInt32 (mulConst 1000 seconds)

/-- The spec's wording of the unit conversion: the exact product `1000 * s`
with the fractional part discarded (for a finite `s ≥ 0`). -/
def specMs : F32 → Nat
  | finite _ mant exp => truncMag (1000 * mant) exp
  | inf _ => 0
  | nan => 0

/-- The spec's range condition `0 ≤ 1000 * s < 2^32` on the exact product. -/
def specInRange : F32 → Prop
  | finite neg mant exp =>
    (neg = false ∨ mant = 0) ∧
      (if 0 ≤ exp then 1000 * mant * 2 ^ exp.toNat < 2 ^ 32
       else 1000 * mant < 2 ^ 32 * 2 ^ (-exp).toNat)
  | inf _ => False
  | nan => False

/-- The condition `0 < s < 0.001` on a finite value, over integers. -/
def subMillisecond : F32 → Prop
  | finite neg mant exp =>
    neg = false ∧ 0 < mant ∧ exp < 0 ∧ 1000 * mant < 2 ^ (-exp).toNat
  | inf _ => False
  | nan => False

/-- The exact product `1000 * s` needs at most 24 bits, so that the binary32
product is the exact one (every whole number of seconds up to 16777 does). -/
def productExact : F32 → Prop
  | finite _ mant _ => 1000 * mant < 2 ^ 24
  | inf _ => False
  | nan => False

instance (s : F32) : Decidable (specInRange s) := by
  cases s <;> unfold specInRange <;> infer_instance

instance (s : F32) : Decidable (subMillisecond s) := by
  cases s <;> unfold subMillisecond <;> infer_instance

instance (s : F32) : Decidable (productExact s) := by
  cases s <;> unfold productExact <;> infer_instance

end F32

/-! ## 2. Callables, external facilities, adapter state -/

/-- A value of `Ticker::callback_function_t` (`std::function<void(void)>`).
The header builds two kinds of lambda around a callable; each is a constructor
holding the captured `callback`. A user callable acts on the user world `W`. -/
inductive callback_function_t (W : Type) where
  /-- The empty holder, `nullptr`. -/
  | nullptr : callback_function_t W
  /-- A callable supplied by the user: it acts on the user world only (a user
  callable that itself calls into the adapter or the queues is not covered). -/
  | fn (f : W → W) : callback_function_t W
  /-- The lambda `[callback]() { schedule_function(callback); }`. -/
  | scheduled (callback : callback_function_t W) : callback_function_t W
  /-- The lambda `[callback]() { schedule_recurrent_function_us(
  [callback]() { callback(); return false; }, 0); }`. -/
  | scheduled_accurate (callback : callback_function_t W) : callback_function_t W

/-- A value of `std::function<bool(void)>` as handed to
`schedule_recurrent_function_us`: the header builds exactly one kind,
`[callback]() { callback(); return false; }`. -/
inductive recurrent_function_t (W : Type) where
  | call_once (callback : callback_function_t W) : recurrent_function_t W

/-- A value of `Ticker::callback_with_arg_t` (`void (*)(void*)`): the address
of the trampoline, or a user function `void (*)(TArg)` after
`reinterpret_cast`; the user function receives the context word. -/
inductive callback_with_arg_t (W : Type) where
  | _static_callback : callback_with_arg_t W
  | user (f : Nat → W → W) : callback_with_arg_t W

/-- The four arguments of one call of the four-argument `_attach_ms`: the
timer-start request `start(duration, repeat, trampoline, context)`. -/
structure StartRequest (W : Type) where
  milliseconds : Nat
  repeat_ : Bool
  callback : callback_with_arg_t W
  arg : Nat

/-- A request to the external timer facility. -/
inductive TimerCall (W : Type) where
  | start (r : StartRequest W) : TimerCall W
  | stop : TimerCall W

/-- The timer-start requests among the requests issued by a call. -/
def startRequests {W : Type} : List (TimerCall W) → List (StartRequest W)
  | [] => []
  | TimerCall.start r :: cs => r :: startRequests cs
  | TimerCall.stop :: cs => startRequests cs

/-- Modelled from the spec: the external timer object (`ETSTimer`, from the
SDK header `ets_sys.h`, absent): idle (`none`) or armed with the request that
started it. -/
abbrev ETSTimer (W : Type) := Option (StartRequest W)

/-- Everything outside the adapter that a callable can touch: the user world
and the two queues of the deferred-execution facility. -/
structure Sys (W : Type) where
  world : W
  scheduled : List (callback_function_t W)
  recurrent : List (recurrent_function_t W × Nat)

/-- Modelled from the spec: `schedule_function` (`Schedule.h`, absent),
"enqueue(callback) — runs callback later on the normal execution loop". -/
def schedule_function {W : Type} (callback : callback_function_t W) (s : Sys W) : Sys W :=
  { s with scheduled := s.scheduled ++ [callback] }

/-- Modelled from the spec: `schedule_recurrent_function_us` (`Schedule.h`,
absent), "enqueue-at-next-yield(callback)", with its repeat interval. -/
def schedule_recurrent_function_us {W : Type} (f : recurrent_function_t W) (repeat_us : Nat)
    (s : Sys W) : Sys W :=
  { s with recurrent := s.recurrent ++ [(f, repeat_us)] }

/-- One call `cb()` of a `callback_function_t`; `none` when the holder is
empty (calling an empty `std::function` does not return). -/
def callback_function_t.invoke {W : Type} : callback_function_t W → Sys W → Option (Sys W)
  | nullptr, _ => none
  | fn f, s => some { s with world := f s.world }
  | scheduled callback, s => some (schedule_function callback s)
  | scheduled_accurate callback, s =>
    some (schedule_recurrent_function_us (recurrent_function_t.call_once callback) 0 s)

/-- One call of a recurrent entry: the state after and the returned flag. -/
def recurrent_function_t.invoke {W : Type} : recurrent_function_t W → Sys W → Option (Sys W × Bool)
  | call_once callback, s => (callback.invoke s).map fun s1 => (s1, false)

/-- Modelled from the spec: the drain of the deferred-execution queue on the
normal execution loop (`run_scheduled_functions`, absent): every entry queued
at the start of the pass runs once, oldest first, and leaves the queue. -/
def run_scheduled_functions {W : Type} (s : Sys W) : Option (Sys W) :=
  s.scheduled.foldlM (fun acc cb => cb.invoke acc) { s with scheduled := [] }

/-- One step of the pass over the recurrent queue: run the entry, keep it when
it returns true. -/
def recurrentStep {W : Type} (acc : Sys W) (e : recurrent_function_t W × Nat) : Option (Sys W) :=
  match e.1.invoke acc with
  | none => none
  | some (s1, true) => some { s1 with recurrent := s1.recurrent ++ [e] }
  | some (s1, false) => some s1

/-- Modelled from the spec: the pass over the recurrent queue at a cooperative
yield point (`run_scheduled_recurrent_functions`, absent): every entry queued
at the start of the pass runs once and is dropped when it returns false. Time
is not modelled: an entry counts as due, which is exact for interval 0, the
only interval the header uses. -/
def run_scheduled_recurrent_functions {W : Type} (s : Sys W) : Option (Sys W) :=
  s.recurrent.foldlM recurrentStep { s with recurrent := [] }

/-- The adapter instance. `self` is its address (`this`). The header's
`_timer` pointer and `_etsTimer` object are read and written only by members
whose bodies are absent; together they are the one external timer the instance
owns. -/
structure Ticker (W : Type) where
  self : Nat
  _callback_function : callback_function_t W
  _etsTimer : ETSTimer W

namespace Ticker

variable {W : Type}

/-- What a registration call yields: the adapter after the call and the
requests it issued to the external timer facility, oldest first. -/
abbrev Outcome (W : Type) := Ticker W × List (TimerCall W)

/-! ## 4a. Members declared in the header, bodies absent -/

/-- Modelled from the spec: the constructor `Ticker()` (body absent); the
header initialises `_callback_function = nullptr`, the spec starts in Idle. -/
def new (self : Nat) : Ticker W :=
  { self := self, _callback_function := callback_function_t.nullptr, _etsTimer := none }

/-- Modelled from the spec: the four-argument `_attach_ms` (declared at
Ticker.h:144, body absent): "cancels any existing registration ... asks the
external timer facility to fire" once or repeatedly; it restarts the external
timer and leaves the callback holder as the caller set it. -/
def _attach_ms_arg (milliseconds : Nat) (repeat_ : Bool) (callback : callback_with_arg_t W)
    (arg : Nat) (t : Ticker W) : Outcome W :=
  let r : StartRequest W :=
    { milliseconds := milliseconds, repeat_ := repeat_, callback := callback, arg := arg }
  ({ t with _etsTimer := some r },
    (match t._etsTimer with
      | none => []
      | some _ => [TimerCall.stop]) ++ [TimerCall.start r])

/-! ## 3. The registration overloads of the header -/

/-- Ticker.h:145 `_attach_ms(uint32_t, bool)`. -/
def _attach_ms (milliseconds : Nat) (repeat_ : Bool) (t : Ticker W) : Outcome W :=
  _attach_ms_arg milliseconds repeat_ callback_with_arg_t._static_callback t.self t

/-- Ticker.h:39. -/
def attach_scheduled (seconds : F32) (callback : callback_function_t W) (t : Ticker W) :
    Option (Outcome W) :=
  let t1 := { t with _callback_function := callback_function_t.scheduled callback }
  (F32.secondsToMs seconds).map fun ms => _attach_ms ms true t1

/-- Ticker.h:46. -/
def attach (seconds : F32) (callback : callback_function_t W) (t : Ticker W) :
    Option (Outcome W) :=
  let t1 := { t with _callback_function := callback }
  (F32.secondsToMs seconds).map fun ms => _attach_ms ms true t1

/-- Ticker.h:53. -/
def attach_ms_scheduled (milliseconds : Nat) (callback : callback_function_t W) (t : Ticker W) :
    Outcome W :=
  let t1 := { t with _callback_function := callback_function_t.scheduled callback }
  _attach_ms milliseconds true t1

/-- Ticker.h:60. -/
def attach_ms_scheduled_accurate (milliseconds : Nat) (callback : callback_function_t W)
    (t : Ticker W) : Outcome W :=
  let t1 := { t with _callback_function := callback_function_t.scheduled_accurate callback }
  _attach_ms milliseconds true t1

/-- Ticker.h:67. -/
def attach_ms (milliseconds : Nat) (callback : callback_function_t W) (t : Ticker W) :
    Outcome W :=
  let t1 := { t with _callback_function := callback }
  _attach_ms milliseconds true t1

/-- Ticker.h:75, `attach(float, void (*)(TArg), TArg)`. -/
def attach_arg (seconds : F32) (callback : Nat → W → W) (arg : Nat) (t : Ticker W) :
    Option (Outcome W) :=
  (F32.secondsToMs seconds).map fun ms =>
    _attach_ms_arg ms true (callback_with_arg_t.user callback) arg t

/-- Ticker.h:86, `attach_ms(uint32_t, void (*)(TArg), TArg)`. -/
def attach_ms_arg (milliseconds : Nat) (callback : Nat → W → W) (arg : Nat) (t : Ticker W) :
    Outcome W :=
  _attach_ms_arg milliseconds true (callback_with_arg_t.user callback) arg t

/-- Ticker.h:96. -/
def once_scheduled (seconds : F32) (callback : callback_function_t W) (t : Ticker W) :
    Option (Outcome W) :=
  let t1 := { t with _callback_function := callback_function_t.scheduled callback }
  (F32.secondsToMs seconds).map fun ms => _attach_ms ms false t1

/-- Ticker.h:103. -/
def once (seconds : F32) (callback : callback_function_t W) (t : Ticker W) :
    Option (Outcome W) :=
  let t1 := { t with _callback_function := callback }
  (F32.secondsToMs seconds).map fun ms => _attach_ms ms false t1

/-- Ticker.h:110. -/
def once_ms_scheduled (milliseconds : Nat) (callback : callback_function_t W) (t : Ticker W) :
    Outcome W :=
  let t1 := { t with _callback_function := callback_function_t.scheduled callback }
  _attach_ms milliseconds false t1

/-- Ticker.h:117. -/
def once_ms (milliseconds : Nat) (callback : callback_function_t W) (t : Ticker W) :
    Outcome W :=
  let t1 := { t with _callback_function := callback }
  _attach_ms milliseconds false t1

/-- Ticker.h:125, `once(float, void (*)(TArg), TArg)`. -/
def once_arg (seconds : F32) (callback : Nat → W → W) (arg : Nat) (t : Ticker W) :
    Option (Outcome W) :=
  (F32.secondsToMs seconds).map fun ms =>
    _attach_ms_arg ms false (callback_with_arg_t.user callback) arg t

/-- Ticker.h:133, `once_ms(uint32_t, void (*)(TArg), TArg)`. -/
def once_ms_arg (milliseconds : Nat) (callback : Nat → W → W) (arg : Nat) (t : Ticker W) :
    Outcome W :=
  _attach_ms_arg milliseconds false (callback_with_arg_t.user callback) arg t

/-! ## 4b. Members declared in the header, bodies absent (continued) -/

/-- Modelled from the spec: `detach()` (declared at Ticker.h:139, body
absent): "stops the external timer and clears the stored callback; safe to
call when no registration is active (no-op)". -/
def detach (t : Ticker W) : Outcome W :=
  match t._etsTimer with
  | none => (t, [])
  | some _ =>
    ({ t with _etsTimer := none, _callback_function := callback_function_t.nullptr },
      [TimerCall.stop])

/-- Modelled from the spec: `active()` (declared at Ticker.h:140, body
absent): "reports whether a registration is currently pending". -/
def active (t : Ticker W) : Bool :=
  t._etsTimer.isSome

/-- Modelled from the spec: `_static_callback(void*)` (declared at
Ticker.h:143, body absent): "receives the instance pointer as context, and
invokes the stored zero-argument callback". Only this instance can be
dereferenced (`none` for another context word). -/
def _static_callback (arg : Nat) (t : Ticker W) (s : Sys W) : Option (Sys W) :=
  if arg = t.self then t._callback_function.invoke s else none

/-- Modelled from the spec: one fire of the external timer owned by the
instance: an idle timer does nothing; an armed one calls its fire target with
its context; "fires once and returns to Idle" or "fires repeatedly, remains
Armed". -/
def fire (t : Ticker W) (s : Sys W) : Option (Ticker W × Sys W) :=
  match t._etsTimer with
  | none => some (t, s)
  | some r =>
    let t1 := if r.repeat_ then t else { t with _etsTimer := none }
    match r.callback with
    | callback_with_arg_t._static_callback => (_static_callback r.arg t1 s).map fun s1 => (t1, s1)
    | callback_with_arg_t.user f => some (t1, { s with world := f r.arg s.world })

/-- The timer fires `n` times in a row. -/
def fireN : Nat → Ticker W → Sys W → Option (Ticker W × Sys W)
  | 0, t, s => some (t, s)
  | n + 1, t, s => (fire t s).bind fun p => fireN n p.1 p.2

/-- A yield point is reached `n` times in a row. -/
def yieldN : Nat → Sys W → Option (Sys W)
  | 0, s => some s
  | n + 1, s => (run_scheduled_recurrent_functions s).bind (yieldN n)

/-- The stored callback is called `n` times in a row. -/
def invokeN (cb : callback_function_t W) : Nat → Sys W → Option (Sys W)
  | 0, s => some s
  | n + 1, s => (cb.invoke s).bind (invokeN cb n)

/-- The timer-start requests a registration call issued. -/
def issued (o : Outcome W) : List (StartRequest W) :=
  startRequests o.2

/-- The repeat flags of the timer-start requests a registration call issued. -/
def repeatFlags (o : Outcome W) : List Bool :=
  (startRequests o.2).map StartRequest.repeat_

/-- What a registration call leaves behind: the adapter state (callback
holder, timer, address) and the timer-start requests it issued. -/
def registered (o : Outcome W) : Ticker W × List (StartRequest W) :=
  (o.1, startRequests o.2)

/-- The timer side of what a registration call leaves behind: the state of the
external timer and the timer-start requests issued. -/
def timerSide (o : Outcome W) : ETSTimer W × List (StartRequest W) :=
  (o.1._etsTimer, startRequests o.2)

end Ticker

/-! ## 5. Lemmas on the binary32 conversion -/

namespace F32

theorem dropBits_eq : ∀ (j fuel M : Nat), j ≤ fuel → M < 2 ^ (24 + j) →
    (j ≠ 0 → 2 ^ (23 + j) ≤ M) → dropBits fuel M = j := by
  intro j
  induction j with
  | zero =>
    intro fuel M _ h _
    cases fuel with
    | zero => rfl
    | succ f => simp only [dropBits]; rw [if_pos (by simpa using h)]
  | succ j ih =>
    intro fuel M hf hlt hge
    have hge1 : 2 ^ (23 + (j + 1)) ≤ M := hge (Nat.succ_ne_zero j)
    cases fuel with
    | zero => omega
    | succ f =>
      have h24 : ¬ M < 2 ^ 24 := by
        have : 2 ^ 24 ≤ 2 ^ (23 + (j + 1)) := Nat.pow_le_pow_right (by norm_num) (by omega)
        omega
      simp only [dropBits]
      rw [if_neg h24]
      have e1 : 2 ^ (24 + (j + 1)) = 2 * 2 ^ (24 + j) := by
        rw [show 24 + (j + 1) = (24 + j) + 1 by omega, pow_succ]; ring
      have e2 : 2 ^ (23 + (j + 1)) = 2 * 2 ^ (23 + j) := by
        rw [show 23 + (j + 1) = (23 + j) + 1 by omega, pow_succ]; ring
      rw [ih f (M / 2) (by omega) (by omega) (by intro _; omega)]

theorem dropBits_self (j M : Nat) (hlt : M < 2 ^ (24 + j)) (hge : j ≠ 0 → 2 ^ (23 + j) ≤ M) :
    dropBits M M = j := by
  apply dropBits_eq j M M _ hlt hge
  by_cases hj : j = 0
  · omega
  · have := hge hj
    have : 23 + j < 2 ^ (23 + j) := Nat.lt_two_pow _
    omega

theorem truncMag_of_nat (m p : Nat) (e : Int) (h : e = (p : Int)) : truncMag m e = m * 2 ^ p := by
  subst h
  simp [truncMag]

theorem truncMag_of_neg (m n : Nat) (e : Int) (h : e = -(n : Int)) :
    truncMag m e = m / 2 ^ n := by
  subst h
  rcases Nat.eq_zero_or_pos n with h0 | hpos
  · subst h0; simp [truncMag]
  · have : ¬ (0 : Int) ≤ -(n : Int) := by omega
    simp [truncMag, this]

theorem truncMag_double (m : Nat) (e : Int) : truncMag (2 * m) e = truncMag m (e + 1) := by
  rcases Int.lt_or_le e 0 with h | h
  · obtain ⟨n, hn⟩ : ∃ n : Nat, e = -((n + 1 : Nat) : Int) := ⟨(-e).toNat - 1, by omega⟩
    rw [truncMag_of_neg (2 * m) (n + 1) e hn, truncMag_of_neg m n (e + 1) (by omega)]
    rw [pow_succ, Nat.mul_comm (2 ^ n) 2]
    exact Nat.mul_div_mul_left m (2 ^ n) (by norm_num)
  · obtain ⟨p, hp⟩ : ∃ p : Nat, e = (p : Int) := ⟨e.toNat, by omega⟩
    rw [truncMag_of_nat (2 * m) p e hp, truncMag_of_nat m (p + 1) (e + 1) (by omega)]
    rw [pow_succ]; ring

theorem toUInt32_round (neg : Bool) (M k : Nat) (e : Int) (hk : dropBits M M = k)
    (he : e + (k : Int) < 104) :
    toUInt32 (round neg M e) = toUInt32 (finite neg (roundShift M k) (e + (k : Int))) := by
  unfold round
  simp only [hk]
  by_cases h24 : roundShift M k = 2 ^ 24
  · rw [if_pos h24, if_neg (by omega), h24]
    have hd : truncMag (2 ^ 23) (e + (k : Int) + 1) = truncMag (2 ^ 24) (e + (k : Int)) := by
      rw [show (2 : Nat) ^ 24 = 2 * 2 ^ 23 by norm_num, truncMag_double]
    simp only [toUInt32, hd]
  · rw [if_neg h24, if_neg (by omega)]

theorem roundShift_zero (M : Nat) : roundShift M 0 = M := by
  simp [roundShift, Nat.mod_one]

theorem roundShift_le (M k : Nat) : roundShift M k ≤ M / 2 ^ k + 1 := by
  unfold roundShift
  simp only
  split_ifs <;> omega

/-- The bit count to drop is one of 0..10 for a product with 1000. -/
theorem dropBits_cases (m : Nat) (hm : m < 2 ^ 24) :
    ∃ k, k ≤ 10 ∧ dropBits (1000 * m) (1000 * m) = k ∧ 1000 * m < 2 ^ (24 + k) ∧
      (k ≠ 0 → 2 ^ (23 + k) ≤ 1000 * m) := by
  have key : ∀ k, 1000 * m < 2 ^ (24 + k) → (k ≠ 0 → 2 ^ (23 + k) ≤ 1000 * m) → k ≤ 10 →
      ∃ k, k ≤ 10 ∧ dropBits (1000 * m) (1000 * m) = k ∧ 1000 * m < 2 ^ (24 + k) ∧
        (k ≠ 0 → 2 ^ (23 + k) ≤ 1000 * m) :=
    fun k h1 h2 h3 => ⟨k, h3, dropBits_self k _ h1 h2, h1, h2⟩
  by_cases h0 : 1000 * m < 2 ^ 24
  · exact key 0 h0 (by intro h; exact absurd rfl h) (by omega)
  by_cases h1 : 1000 * m < 2 ^ 25
  · exact key 1 h1 (by intro _; norm_num; omega) (by omega)
  by_cases h2 : 1000 * m < 2 ^ 26
  · exact key 2 h2 (by intro _; norm_num; omega) (by omega)
  by_cases h3 : 1000 * m < 2 ^ 27
  · exact key 3 h3 (by intro _; norm_num; omega) (by omega)
  by_cases h4 : 1000 * m < 2 ^ 28
  · exact key 4 h4 (by intro _; norm_num; omega) (by omega)
  by_cases h5 : 1000 * m < 2 ^ 29
  · exact key 5 h5 (by intro _; norm_num; omega) (by omega)
  by_cases h6 : 1000 * m < 2 ^ 30
  · exact key 6 h6 (by intro _; norm_num; omega) (by omega)
  by_cases h7 : 1000 * m < 2 ^ 31
  · exact key 7 h7 (by intro _; norm_num; omega) (by omega)
  by_cases h8 : 1000 * m < 2 ^ 32
  · exact key 8 h8 (by intro _; norm_num; omega) (by omega)
  by_cases h9 : 1000 * m < 2 ^ 33
  · exact key 9 h9 (by intro _; norm_num; omega) (by omega)
  · exact key 10 (by norm_num; omega) (by intro _; norm_num; omega) (by omega)

theorem subms_aux (m n k : Nat) (hm : m < 2 ^ 24) (hpos : 0 < m) (hk : k ≤ 10)
    (hlt : 1000 * m < 2 ^ (24 + k)) (hge : k ≠ 0 → 2 ^ (23 + k) ≤ 1000 * m)
    (hn : 1000 * m < 2 ^ n) : k ≤ n ∧ roundShift (1000 * m) k < 2 ^ (n - k) := by
  rcases Nat.eq_zero_or_pos k with h0 | hkpos
  · subst h0
    rw [roundShift_zero]
    exact ⟨Nat.zero_le _, by simpa using hn⟩
  · have hge1 := hge (by omega)
    have hn1 : 23 + k < n :=
      (Nat.pow_lt_pow_iff_right (by norm_num : 1 < 2)).mp (lt_of_le_of_lt hge1 hn)
    refine ⟨by omega, ?_⟩
    have hle := roundShift_le (1000 * m) k
    rcases Nat.eq_or_lt_of_le (show 24 + k ≤ n by omega) with heq | hlt2
    · subst heq
      rw [show 24 + k - k = 24 by omega]
      unfold roundShift
      simp only
      interval_cases k <;> norm_num at hlt hge1 ⊢ <;> split_ifs <;> omega
    · have h25 : 2 ^ 25 ≤ 2 ^ (n - k) := Nat.pow_le_pow_right (by norm_num) (by omega)
      have hdiv : 1000 * m / 2 ^ k < 2 ^ 24 := by
        rw [Nat.div_lt_iff_lt_mul (by positivity), ← pow_add]
        exact hlt
      omega

theorem secondsToMs_subMillisecond (s : F32) (hwf : wf s) (hs : subMillisecond s) :
    secondsToMs s = some 0 := by
  cases s with
  | inf neg => exact absurd hs (by simp [subMillisecond])
  | nan => exact absurd hs (by simp [subMillisecond])
  | finite neg m e =>
    obtain ⟨hneg, hpos, he, hlt⟩ := hs
    obtain ⟨hm, _, _⟩ := hwf
    subst hneg
    obtain ⟨n, hn⟩ : ∃ n : Nat, e = -(n : Int) := ⟨(-e).toNat, by omega⟩
    have hn2 : (-e).toNat = n := by omega
    rw [hn2] at hlt
    obtain ⟨k, hk10, hk, hklt, hkge⟩ := dropBits_cases m hm
    obtain ⟨hkn, hr⟩ := subms_aux m n k hm hpos hk10 hklt hkge hlt
    show toUInt32 (round false (1000 * m) e) = _
    rw [toUInt32_round false (1000 * m) k e hk (by omega)]
    have ht : truncMag (roundShift (1000 * m) k) (e + (k : Int)) = 0 := by
      rw [truncMag_of_neg _ (n - k) _ (by omega)]
      exact Nat.div_eq_of_lt hr
    simp [toUInt32, ht]

theorem truncMag_zero (e : Int) : truncMag 0 e = 0 := by
  unfold truncMag
  split_ifs <;> simp

theorem roundShift_div_lt (m k : Nat) (hlt : 1000 * m < 2 ^ (24 + k)) :
    1000 * m / 2 ^ k < 2 ^ 24 := by
  rw [Nat.div_lt_iff_lt_mul (by positivity), ← pow_add]
  exact hlt

set_option maxHeartbeats 1000000 in
theorem inrange_neg (m k n : Nat) (hm : m < 2 ^ 24) (hk : k ≤ 10) (hnk : n < k)
    (hlt : 1000 * m < 2 ^ (24 + k)) (hge1 : 2 ^ (23 + k) ≤ 1000 * m)
    (hr : 1000 * m < 2 ^ 32 * 2 ^ n) :
    roundShift (1000 * m) k * 2 ^ (k - n) < 2 ^ 32 := by
  have h1 : 2 ^ (23 + k) < 2 ^ (32 + n) := by
    rw [pow_add 2 32 n]; exact lt_of_le_of_lt hge1 hr
  have h2 : 23 + k < 32 + n := (Nat.pow_lt_pow_iff_right (by norm_num : 1 < 2)).mp h1
  unfold roundShift
  simp only
  interval_cases k <;> interval_cases n <;> norm_num at hr hlt hge1 ⊢ <;>
    split_ifs <;> omega

set_option maxHeartbeats 1000000 in
theorem inrange_pos (m k p : Nat) (hm : m < 2 ^ 24) (hk : k ≤ 10) (hkpos : 0 < k)
    (hlt : 1000 * m < 2 ^ (24 + k)) (hge1 : 2 ^ (23 + k) ≤ 1000 * m)
    (hr : 1000 * m * 2 ^ p < 2 ^ 32) :
    roundShift (1000 * m) k * 2 ^ (p + k) < 2 ^ 32 := by
  have h1 : 2 ^ (23 + k + p) < 2 ^ 32 := by
    have h3 : 2 ^ (23 + k) * 2 ^ p ≤ 1000 * m * 2 ^ p := Nat.mul_le_mul_right _ hge1
    rw [pow_add]; omega
  have h2 : 23 + k + p < 32 := (Nat.pow_lt_pow_iff_right (by norm_num : 1 < 2)).mp h1
  have hp9 : p < 9 := by omega
  unfold roundShift
  simp only
  interval_cases k <;> interval_cases p <;> norm_num at hr hlt hge1 ⊢ <;>
    split_ifs <;> omega

theorem inrange_aux (m k : Nat) (e : Int) (hm : m < 2 ^ 24) (hpos : 0 < m) (hk : k ≤ 10)
    (hlt : 1000 * m < 2 ^ (24 + k)) (hge : k ≠ 0 → 2 ^ (23 + k) ≤ 1000 * m)
    (hr : if 0 ≤ e then 1000 * m * 2 ^ e.toNat < 2 ^ 32
      else 1000 * m < 2 ^ 32 * 2 ^ (-e).toNat) :
    truncMag (roundShift (1000 * m) k) (e + (k : Int)) < 2 ^ 32 ∧ e + (k : Int) < 104 := by
  have hle := roundShift_le (1000 * m) k
  have hdiv := roundShift_div_lt m k hlt
  rcases Int.lt_or_le e 0 with he | he
  · obtain ⟨n, hn⟩ : ∃ n : Nat, e = -(n : Int) := ⟨(-e).toNat, by omega⟩
    have hn2 : (-e).toNat = n := by omega
    rw [if_neg (by omega), hn2] at hr
    refine ⟨?_, by omega⟩
    rcases Nat.lt_or_ge n k with hnk | hnk
    · rw [truncMag_of_nat _ (k - n) _ (by omega)]
      exact inrange_neg m k n hm hk hnk hlt (hge (by omega)) hr
    · rw [truncMag_of_neg _ (n - k) _ (by omega)]
      have : roundShift (1000 * m) k / 2 ^ (n - k) ≤ roundShift (1000 * m) k :=
        Nat.div_le_self _ _
      omega
  · obtain ⟨p, hp⟩ : ∃ p : Nat, e = (p : Int) := ⟨e.toNat, by omega⟩
    have hp2 : e.toNat = p := by omega
    rw [if_pos he, hp2] at hr
    have hp23 : p < 23 := by
      have h1 : 2 ^ (9 + p) < 2 ^ 32 := by
        have h3 : 2 ^ 9 * 2 ^ p ≤ 1000 * m * 2 ^ p :=
          Nat.mul_le_mul_right _ (by norm_num; omega)
        rw [pow_add]; omega
      have := (Nat.pow_lt_pow_iff_right (by norm_num : 1 < 2)).mp h1
      omega
    refine ⟨?_, by omega⟩
    rw [truncMag_of_nat _ (p + k) _ (by omega)]
    rcases Nat.eq_zero_or_pos k with hk0 | hkpos
    · subst hk0
      rw [roundShift_zero]
      simpa using hr
    · exact inrange_pos m k p hm hk hkpos hlt (hge (by omega)) hr

theorem toUInt32_of_lt (m : Nat) (e : Int) (h : truncMag m e < 2 ^ 32) :
    toUInt32 (finite false m e) = some (truncMag m e) := by
  unfold toUInt32
  simp only [Bool.false_eq_true, if_false]
  rw [if_pos h]

theorem toUInt32_zero (neg : Bool) (e : Int) : toUInt32 (finite neg 0 e) = some 0 := by
  cases neg <;> simp [toUInt32, truncMag_zero]

theorem secondsToMs_zero (neg : Bool) (e : Int) (he : e ≤ 104) :
    secondsToMs (finite neg 0 e) = some 0 := by
  have h1 : round neg (1000 * 0) e = finite neg 0 e := by
    have hd : dropBits 0 0 = 0 := rfl
    have hr : roundShift 0 0 = 0 := roundShift_zero 0
    unfold round
    simp only [Nat.mul_zero, hd, hr]
    rw [if_neg (by norm_num), if_neg (by omega)]
    simp
  show toUInt32 (round neg (1000 * 0) e) = some 0
  rw [h1, toUInt32_zero]

/-- Under the range condition on the exact product the conversion is defined. -/
theorem secondsToMs_defined (s : F32) (hwf : wf s) (hs : specInRange s) :
    ∃ ms, secondsToMs s = some ms ∧ ms < 2 ^ 32 := by
  cases s with
  | inf neg => exact absurd hs (by simp [specInRange])
  | nan => exact absurd hs (by simp [specInRange])
  | finite neg m e =>
    obtain ⟨hsign, hr⟩ := hs
    obtain ⟨hm, _, he104⟩ := hwf
    rcases Nat.eq_zero_or_pos m with hm0 | hpos
    · subst hm0
      exact ⟨0, secondsToMs_zero neg e he104, by norm_num⟩
    · have hneg : neg = false := by
        rcases hsign with h | h
        · exact h
        · omega
      subst hneg
      obtain ⟨k, hk10, hk, hklt, hkge⟩ := dropBits_cases m hm
      obtain ⟨hb, he1⟩ := inrange_aux m k e hm hpos hk10 hklt hkge hr
      refine ⟨truncMag (roundShift (1000 * m) k) (e + (k : Int)), ?_, hb⟩
      show toUInt32 (round false (1000 * m) e) = _
      rw [toUInt32_round false (1000 * m) k e hk he1]
      exact toUInt32_of_lt _ _ hb

/-- When the exact product needs no rounding the conversion is the spec's. -/
theorem secondsToMs_exact (s : F32) (hwf : wf s) (hs : specInRange s) (hex : productExact s) :
    secondsToMs s = some (specMs s) := by
  cases s with
  | inf neg => exact absurd hs (by simp [specInRange])
  | nan => exact absurd hs (by simp [specInRange])
  | finite neg m e =>
    obtain ⟨hsign, hr⟩ := hs
    obtain ⟨hm, _, he104⟩ := hwf
    have hM : 1000 * m < 2 ^ 24 := hex
    rcases Nat.eq_zero_or_pos m with hm0 | hpos
    · subst hm0
      rw [secondsToMs_zero neg e he104]
      simp [specMs, truncMag_zero]
    · have hneg : neg = false := by
        rcases hsign with h | h
        · exact h
        · omega
      subst hneg
      have hk : dropBits (1000 * m) (1000 * m) = 0 :=
        dropBits_self 0 _ (by simpa using hM) (by intro h; exact absurd rfl h)
      obtain ⟨hb, he1⟩ := inrange_aux m 0 e hm hpos (by omega) (by simpa using hM)
        (by intro h; exact absurd rfl h) hr
      show toUInt32 (round false (1000 * m) e) = _
      rw [toUInt32_round false (1000 * m) 0 e hk he1]
      rw [roundShift_zero] at hb ⊢
      simp only [Nat.cast_zero, add_zero] at hb ⊢
      rw [toUInt32_of_lt _ _ hb]
      rfl

end F32

/-! ## 6. Registration -/

namespace Ticker

variable {W : Type}

theorem startRequests_attach_ms_arg (ms : Nat) (rep : Bool) (cb : callback_with_arg_t W)
    (a : Nat) (t : Ticker W) :
    startRequests (_attach_ms_arg ms rep cb a t).2 =
      [{ milliseconds := ms, repeat_ := rep, callback := cb, arg := a }] := by
  unfold _attach_ms_arg
  cases t._etsTimer <;> rfl

theorem startRequests_attach_ms (ms : Nat) (rep : Bool) (t : Ticker W) :
    startRequests (_attach_ms ms rep t).2 =
      [{ milliseconds := ms, repeat_ := rep,
         callback := callback_with_arg_t._static_callback, arg := t.self }] :=
  startRequests_attach_ms_arg ms rep _ t.self t

theorem attach_of_ms (s : F32) (ms : Nat) (f : callback_function_t W) (t : Ticker W)
    (hs : F32.secondsToMs s = some ms) : attach s f t = some (attach_ms ms f t) := by
  simp only [attach, attach_ms, hs, Option.map_some']

theorem once_of_ms (s : F32) (ms : Nat) (f : callback_function_t W) (t : Ticker W)
    (hs : F32.secondsToMs s = some ms) : once s f t = some (once_ms ms f t) := by
  simp only [once, once_ms, hs, Option.map_some']

theorem attach_scheduled_of_ms (s : F32) (ms : Nat) (f : callback_function_t W) (t : Ticker W)
    (hs : F32.secondsToMs s = some ms) :
    attach_scheduled s f t = some (attach_ms_scheduled ms f t) := by
  simp only [attach_scheduled, attach_ms_scheduled, hs, Option.map_some']

theorem once_scheduled_of_ms (s : F32) (ms : Nat) (f : callback_function_t W) (t : Ticker W)
    (hs : F32.secondsToMs s = some ms) :
    once_scheduled s f t = some (once_ms_scheduled ms f t) := by
  simp only [once_scheduled, once_ms_scheduled, hs, Option.map_some']

theorem attach_arg_of_ms (s : F32) (ms : Nat) (g : Nat → W → W) (a : Nat) (t : Ticker W)
    (hs : F32.secondsToMs s = some ms) :
    attach_arg s g a t = some (attach_ms_arg ms g a t) := by
  simp only [attach_arg, attach_ms_arg, hs, Option.map_some']

theorem once_arg_of_ms (s : F32) (ms : Nat) (g : Nat → W → W) (a : Nat) (t : Ticker W)
    (hs : F32.secondsToMs s = some ms) :
    once_arg s g a t = some (once_ms_arg ms g a t) := by
  simp only [once_arg, once_ms_arg, hs, Option.map_some']

/-- C1: after a zero-argument direct registration on any adapter state the
callback holder is exactly `f` and exactly one timer-start request was issued,
carrying the new duration: for `attach_ms(ms, f)` and `once_ms(ms, f)` at
every `ms`, and for `attach(s, f)` and `once(s, f)` at every `s` whose
conversion `1000UL * s` to `uint32_t` is defined, with the converted value. -/
theorem direct_registration_stores_and_starts_once (t : Ticker W) (f : callback_function_t W)
    (ms : Nat) :
    ((attach_ms ms f t).1._callback_function = f ∧
      (startRequests (attach_ms ms f t).2).map StartRequest.milliseconds = [ms]) ∧
    ((once_ms ms f t).1._callback_function = f ∧
      (startRequests (once_ms ms f t).2).map StartRequest.milliseconds = [ms]) ∧
    (∀ (s : F32) (d : Nat), F32.secondsToMs s = some d →
      (∃ o, attach s f t = some o ∧ o.1._callback_function = f ∧
        (startRequests o.2).map StartRequest.milliseconds = [d]) ∧
      (∃ o, once s f t = some o ∧ o.1._callback_function = f ∧
        (startRequests o.2).map StartRequest.milliseconds = [d])) := by
  have h1 : ∀ m : Nat,
      (startRequests (attach_ms m f t).2).map StartRequest.milliseconds = [m] := by
    intro m
    simp only [attach_ms, startRequests_attach_ms, List.map]
  have h2 : ∀ m : Nat,
      (startRequests (once_ms m f t).2).map StartRequest.milliseconds = [m] := by
    intro m
    simp only [once_ms, startRequests_attach_ms, List.map]
  exact ⟨⟨rfl, h1 ms⟩, ⟨rfl, h2 ms⟩, fun s d hs =>
    ⟨⟨_, attach_of_ms s d f t hs, rfl, h1 d⟩, ⟨_, once_of_ms s d f t hs, rfl, h2 d⟩⟩⟩

theorem direct_registration_stores_and_starts_once_witness :
    F32.secondsToMs (F32.finite false 3 (-1)) = some 1500 ∧
    ((attach_ms 16777217 (callback_function_t.fn Nat.succ)
        (attach_ms 20 (callback_function_t.fn (fun n => n + 2)) (new 64)).1).1._callback_function
        = callback_function_t.fn Nat.succ ∧
      (startRequests (attach_ms 16777217 (callback_function_t.fn Nat.succ)
        (attach_ms 20 (callback_function_t.fn (fun n => n + 2)) (new 64)).1).2).map
          StartRequest.milliseconds = [16777217]) ∧
    (∃ o, attach (F32.finite false 3 (-1)) (callback_function_t.fn Nat.succ)
        (attach_ms 20 (callback_function_t.fn (fun n => n + 2)) (new 64)).1 = some o ∧
      o.1._callback_function = callback_function_t.fn Nat.succ ∧
      (startRequests o.2).map StartRequest.milliseconds = [1500]) :=
  ⟨by decide,
    (direct_registration_stores_and_starts_once
      (attach_ms 20 (callback_function_t.fn (fun n => n + 2)) (new 64)).1
      (callback_function_t.fn Nat.succ) 16777217).1,
    ((direct_registration_stores_and_starts_once
      (attach_ms 20 (callback_function_t.fn (fun n => n + 2)) (new 64)).1
      (callback_function_t.fn Nat.succ) 16777217).2.2
        (F32.finite false 3 (-1)) 1500 (by decide)).1⟩

theorem issued_attach_ms (ms : Nat) (rep : Bool) (t : Ticker W) :
    issued (_attach_ms ms rep t) =
      [{ milliseconds := ms, repeat_ := rep,
         callback := callback_with_arg_t._static_callback, arg := t.self }] :=
  startRequests_attach_ms ms rep t

theorem repeatFlags_attach_ms_arg (ms : Nat) (rep : Bool) (cb : callback_with_arg_t W)
    (a : Nat) (t : Ticker W) : repeatFlags (_attach_ms_arg ms rep cb a t) = [rep] := by
  simp only [repeatFlags, startRequests_attach_ms_arg, List.map]

/-- C2: every periodic registration issues its timer-start request with
repeat = true and every one-shot registration with repeat = false, for every
prior state, callback and duration: the millisecond overloads at every `ms`,
the seconds overloads at every `s` whose conversion to `uint32_t` is
defined. -/
theorem repeat_flag_periodic_true_oneshot_false (t : Ticker W) (f : callback_function_t W)
    (g : Nat → W → W) (a ms : Nat) :
    (repeatFlags (attach_ms ms f t) = [true] ∧
     repeatFlags (attach_ms_scheduled ms f t) = [true] ∧
     repeatFlags (attach_ms_scheduled_accurate ms f t) = [true] ∧
     repeatFlags (attach_ms_arg ms g a t) = [true]) ∧
    (repeatFlags (once_ms ms f t) = [false] ∧
     repeatFlags (once_ms_scheduled ms f t) = [false] ∧
     repeatFlags (once_ms_arg ms g a t) = [false]) ∧
    (∀ (s : F32) (d : Nat), F32.secondsToMs s = some d →
      ((attach s f t).map repeatFlags = some [true] ∧
       (attach_scheduled s f t).map repeatFlags = some [true] ∧
       (attach_arg s g a t).map repeatFlags = some [true]) ∧
      ((once s f t).map repeatFlags = some [false] ∧
       (once_scheduled s f t).map repeatFlags = some [false] ∧
       (once_arg s g a t).map repeatFlags = some [false])) := by
  refine ⟨?_, ?_, ?_⟩
  · simp only [attach_ms, attach_ms_scheduled, attach_ms_scheduled_accurate, attach_ms_arg,
      _attach_ms, repeatFlags_attach_ms_arg, and_self]
  · simp only [once_ms, once_ms_scheduled, once_ms_arg, _attach_ms,
      repeatFlags_attach_ms_arg, and_self]
  · intro s d hs
    rw [attach_of_ms s d f t hs, attach_scheduled_of_ms s d f t hs,
      attach_arg_of_ms s d g a t hs, once_of_ms s d f t hs,
      once_scheduled_of_ms s d f t hs, once_arg_of_ms s d g a t hs]
    simp only [Option.map_some', attach_ms, attach_ms_scheduled, attach_ms_arg, once_ms,
      once_ms_scheduled, once_ms_arg, _attach_ms, repeatFlags_attach_ms_arg, and_self]

theorem repeat_flag_periodic_true_oneshot_false_witness :
    F32.secondsToMs (F32.finite false 1 1) = some 2000 ∧
    repeatFlags (attach_ms 16777217 (callback_function_t.fn Nat.succ) (new 64)) = [true] ∧
    repeatFlags (once_ms_arg 16777217 (fun _ n => n) 0 (new 64 : Ticker Nat)) = [false] ∧
    ((attach (F32.finite false 1 1) (callback_function_t.fn Nat.succ) (new 64)).map repeatFlags
        = some [true] ∧
     (once (F32.finite false 1 1) (callback_function_t.fn Nat.succ) (new 64)).map repeatFlags
        = some [false]) :=
  ⟨by decide,
    (repeat_flag_periodic_true_oneshot_false (new 64) (callback_function_t.fn Nat.succ)
      (fun _ n => n) 0 16777217).1.1,
    (repeat_flag_periodic_true_oneshot_false (new 64) (callback_function_t.fn Nat.succ)
      (fun _ n => n) 0 16777217).2.1.2.2,
    ((repeat_flag_periodic_true_oneshot_false (new 64) (callback_function_t.fn Nat.succ)
      (fun _ n => n) 0 16777217).2.2 (F32.finite false 1 1) 2000 (by decide)).1.1,
    ((repeat_flag_periodic_true_oneshot_false (new 64) (callback_function_t.fn Nat.succ)
      (fun _ n => n) 0 16777217).2.2 (F32.finite false 1 1) 2000 (by decide)).2.1⟩

/-- C9: every zero-argument registration (direct or deferred, periodic or
one-shot; the header has nine such overloads) issues exactly the timer-start
request naming the trampoline `_static_callback` as fire target and the
registering instance as context; the two-argument `_attach_ms` hands duration
and repeat flag on unchanged. The millisecond overloads at every `ms`, the
seconds overloads at every `s` whose conversion to `uint32_t` is defined. -/
theorem zero_arg_registration_targets_trampoline (t : Ticker W) (f : callback_function_t W)
    (ms : Nat) (rep : Bool) :
    _attach_ms ms rep t =
      _attach_ms_arg ms rep callback_with_arg_t._static_callback t.self t ∧
    issued (_attach_ms ms rep t) = [⟨ms, rep, callback_with_arg_t._static_callback, t.self⟩] ∧
    issued (attach_ms_scheduled ms f t)
      = [⟨ms, true, callback_with_arg_t._static_callback, t.self⟩] ∧
    issued (attach_ms_scheduled_accurate ms f t)
      = [⟨ms, true, callback_with_arg_t._static_callback, t.self⟩] ∧
    issued (attach_ms ms f t)
      = [⟨ms, true, callback_with_arg_t._static_callback, t.self⟩] ∧
    issued (once_ms_scheduled ms f t)
      = [⟨ms, false, callback_with_arg_t._static_callback, t.self⟩] ∧
    issued (once_ms ms f t)
      = [⟨ms, false, callback_with_arg_t._static_callback, t.self⟩] ∧
    (∀ (s : F32) (d : Nat), F32.secondsToMs s = some d →
      (attach_scheduled s f t).map issued
        = some [⟨d, true, callback_with_arg_t._static_callback, t.self⟩] ∧
      (attach s f t).map issued
        = some [⟨d, true, callback_with_arg_t._static_callback, t.self⟩] ∧
      (once_scheduled s f t).map issued
        = some [⟨d, false, callback_with_arg_t._static_callback, t.self⟩] ∧
      (once s f t).map issued
        = some [⟨d, false, callback_with_arg_t._static_callback, t.self⟩]) := by
  refine ⟨rfl, issued_attach_ms ms rep t, ?_, ?_, ?_, ?_, ?_, ?_⟩
  · simp only [attach_ms_scheduled, issued_attach_ms]
  · simp only [attach_ms_scheduled_accurate, issued_attach_ms]
  · simp only [attach_ms, issued_attach_ms]
  · simp only [once_ms_scheduled, issued_attach_ms]
  · simp only [once_ms, issued_attach_ms]
  · intro s d hs
    rw [attach_of_ms s d f t hs, attach_scheduled_of_ms s d f t hs, once_of_ms s d f t hs,
      once_scheduled_of_ms s d f t hs]
    simp only [Option.map_some', attach_ms, attach_ms_scheduled, once_ms, once_ms_scheduled,
      issued_attach_ms, and_self]

theorem zero_arg_registration_targets_trampoline_witness :
    F32.secondsToMs (F32.finite false 5 (-1)) = some 2500 ∧
    issued (attach_ms_scheduled_accurate 16777217 (callback_function_t.fn Nat.succ) (new 64))
      = [⟨16777217, true, callback_with_arg_t._static_callback, 64⟩] ∧
    (once_scheduled (F32.finite false 5 (-1)) (callback_function_t.fn Nat.succ) (new 64)).map
      issued = some [⟨2500, false, callback_with_arg_t._static_callback, 64⟩] :=
  ⟨by decide,
    (zero_arg_registration_targets_trampoline (new 64) (callback_function_t.fn Nat.succ)
      16777217 false).2.2.2.1,
    ((zero_arg_registration_targets_trampoline (new 64) (callback_function_t.fn Nat.succ)
      16777217 false).2.2.2.2.2.2.2 (F32.finite false 5 (-1)) 2500 (by decide)).2.2.1⟩

/-- C3, the claim as stated fails: after `attach_ms(1, f)`, the
argument-carrying `attach_ms(5, fn, 7)` leaves `f` in the callback holder,
while on a freshly constructed adapter the same call leaves the holder empty. -/
theorem reregistration_arg_variant_keeps_old_holder :
    registered (attach_ms_arg 5 (fun _ u => u) 7
        (attach_ms 1 (callback_function_t.fn id) (new 64 : Ticker Unit)).1)
      ≠ registered (attach_ms_arg 5 (fun _ u => u) 7 (new 64 : Ticker Unit)) ∧
    (attach_ms_arg 5 (fun _ u => u) 7
        (attach_ms 1 (callback_function_t.fn id) (new 64 : Ticker Unit)).1).1._callback_function
      = callback_function_t.fn id ∧
    (attach_ms_arg 5 (fun _ u => u) 7 (new 64 : Ticker Unit)).1._callback_function
      = callback_function_t.nullptr := by
  refine ⟨?_, rfl, rfl⟩
  intro h
  have h2 := congrArg (fun p => p.1._callback_function) h
  exact callback_function_t.noConfusion h2

/-- C3 (amended): a registration leaves no trace of the prior registration in
the timer: for every prior state and every registration call the timer state
and the timer-start request issued are those the same call produces on a
freshly constructed adapter; for the zero-argument calls (direct and deferred)
the whole resulting state, callback holder included, is. -/
theorem reregistration_equals_fresh (t : Ticker W) (f : callback_function_t W)
    (g : Nat → W → W) (a ms : Nat) (s : F32) :
    (registered (attach_ms ms f t) = registered (attach_ms ms f (new t.self)) ∧
     registered (attach_ms_scheduled ms f t) = registered (attach_ms_scheduled ms f (new t.self)) ∧
     registered (attach_ms_scheduled_accurate ms f t)
       = registered (attach_ms_scheduled_accurate ms f (new t.self)) ∧
     registered (once_ms ms f t) = registered (once_ms ms f (new t.self)) ∧
     registered (once_ms_scheduled ms f t) = registered (once_ms_scheduled ms f (new t.self)) ∧
     (attach s f t).map registered = (attach s f (new t.self)).map registered ∧
     (attach_scheduled s f t).map registered
       = (attach_scheduled s f (new t.self)).map registered ∧
     (once s f t).map registered = (once s f (new t.self)).map registered ∧
     (once_scheduled s f t).map registered
       = (once_scheduled s f (new t.self)).map registered) ∧
    (timerSide (attach_ms_arg ms g a t) = timerSide (attach_ms_arg ms g a (new t.self)) ∧
     timerSide (once_ms_arg ms g a t) = timerSide (once_ms_arg ms g a (new t.self)) ∧
     (attach_arg s g a t).map timerSide = (attach_arg s g a (new t.self)).map timerSide ∧
     (once_arg s g a t).map timerSide = (once_arg s g a (new t.self)).map timerSide) := by
  have key : ∀ (rep : Bool) (m : Nat) (cb : callback_function_t W),
      registered (_attach_ms m rep { t with _callback_function := cb })
        = registered (_attach_ms m rep { (new t.self : Ticker W) with _callback_function := cb }) := by
    intro rep m cb
    simp only [registered, _attach_ms, startRequests_attach_ms_arg]
    rfl
  have keyArg : ∀ (rep : Bool) (m : Nat),
      timerSide (_attach_ms_arg m rep (callback_with_arg_t.user g) a t)
        = timerSide (_attach_ms_arg m rep (callback_with_arg_t.user g) a (new t.self)) := by
    intro rep m
    simp only [timerSide, startRequests_attach_ms_arg]
    rfl
  refine ⟨⟨key _ _ _, key _ _ _, key _ _ _, key _ _ _, key _ _ _, ?_, ?_, ?_, ?_⟩,
    ⟨keyArg _ _, keyArg _ _, ?_, ?_⟩⟩
  · cases hs : F32.secondsToMs s <;> simp only [attach, hs, Option.map_none', Option.map_some', key]
  · cases hs : F32.secondsToMs s <;>
      simp only [attach_scheduled, hs, Option.map_none', Option.map_some', key]
  · cases hs : F32.secondsToMs s <;> simp only [once, hs, Option.map_none', Option.map_some', key]
  · cases hs : F32.secondsToMs s <;>
      simp only [once_scheduled, hs, Option.map_none', Option.map_some', key]
  · cases hs : F32.secondsToMs s <;>
      simp only [attach_arg, hs, Option.map_none', Option.map_some', keyArg]
  · cases hs : F32.secondsToMs s <;>
      simp only [once_arg, hs, Option.map_none', Option.map_some', keyArg]

/-- C4, the claim as stated fails: `attach_ms(5, fn, 7)` on the adapter at
address 64 issues one timer-start request whose fire target is not the
trampoline and whose context is the argument 7, not the instance. -/
theorem arg_registration_bypasses_trampoline :
    issued (attach_ms_arg 5 (fun _ u => u) 7 (new 64 : Ticker Unit))
      = [⟨5, true, callback_with_arg_t.user (fun _ u => u), 7⟩] ∧
    issued (attach_ms_arg 5 (fun _ u => u) 7 (new 64 : Ticker Unit))
      ≠ [⟨5, true, callback_with_arg_t._static_callback, 64⟩] := by
  constructor
  · simp only [issued, attach_ms_arg, startRequests_attach_ms_arg]
  · intro h
    simp only [issued, attach_ms_arg, startRequests_attach_ms_arg, List.cons.injEq,
      StartRequest.mk.injEq] at h
    exact absurd h.1.2.2.2 (by decide)

/-- C4 (amended): an argument-carrying registration hands the function pointer
and the argument to the timer-start request itself: the one request issued
names the user function (not the trampoline) as fire target and the argument
(not the instance) as context, and the adapter's timer is armed with it. The
millisecond overloads at every `ms`, the seconds overloads at every `s` whose
conversion to `uint32_t` is defined. -/
theorem arg_registration_targets_user_function (t : Ticker W) (g : Nat → W → W) (a ms : Nat) :
    timerSide (attach_ms_arg ms g a t)
      = (some ⟨ms, true, callback_with_arg_t.user g, a⟩,
          [⟨ms, true, callback_with_arg_t.user g, a⟩]) ∧
    timerSide (once_ms_arg ms g a t)
      = (some ⟨ms, false, callback_with_arg_t.user g, a⟩,
          [⟨ms, false, callback_with_arg_t.user g, a⟩]) ∧
    (∀ (s : F32) (d : Nat), F32.secondsToMs s = some d →
      (attach_arg s g a t).map timerSide
        = some (some ⟨d, true, callback_with_arg_t.user g, a⟩,
            [⟨d, true, callback_with_arg_t.user g, a⟩]) ∧
      (once_arg s g a t).map timerSide
        = some (some ⟨d, false, callback_with_arg_t.user g, a⟩,
            [⟨d, false, callback_with_arg_t.user g, a⟩])) := by
  have key : ∀ (m : Nat) (rep : Bool),
      timerSide (_attach_ms_arg m rep (callback_with_arg_t.user g) a t)
        = (some ⟨m, rep, callback_with_arg_t.user g, a⟩,
            [⟨m, rep, callback_with_arg_t.user g, a⟩]) := by
    intro m rep
    simp only [timerSide, startRequests_attach_ms_arg]
    rfl
  refine ⟨key ms true, key ms false, ?_⟩
  intro s d hs
  rw [attach_arg_of_ms s d g a t hs, once_arg_of_ms s d g a t hs]
  exact ⟨congrArg some (key d true), congrArg some (key d false)⟩

theorem arg_registration_targets_user_function_witness :
    F32.secondsToMs (F32.finite false 1 0) = some 1000 ∧
    timerSide (attach_ms_arg 16777217 (fun k n => n + k) 7 (new 64))
      = (some ⟨16777217, true, callback_with_arg_t.user (fun k n => n + k), 7⟩,
          [⟨16777217, true, callback_with_arg_t.user (fun k n => n + k), 7⟩]) ∧
    (once_arg (F32.finite false 1 0) (fun k n => n + k) 7 (new 64)).map timerSide
      = some (some ⟨1000, false, callback_with_arg_t.user (fun k n => n + k), 7⟩,
          [⟨1000, false, callback_with_arg_t.user (fun k n => n + k), 7⟩]) :=
  ⟨by decide,
    (arg_registration_targets_user_function (new 64) (fun k n => n + k) 7 16777217).1,
    ((arg_registration_targets_user_function (new 64) (fun k n => n + k) 7 16777217).2.2
      (F32.finite false 1 0) 1000 (by decide)).2⟩

end Ticker

/-! ### Firing, deferred execution -/

namespace Ticker

variable {W : Type}

theorem invokeN_scheduled (cb : callback_function_t W) (n : Nat) (w : W)
    (q : List (callback_function_t W)) (rq : List (recurrent_function_t W × Nat)) :
    invokeN (callback_function_t.scheduled cb) n ⟨w, q, rq⟩
      = some ⟨w, q ++ List.replicate n cb, rq⟩ := by
  induction n generalizing q with
  | zero => simp [invokeN]
  | succ n ih =>
    simp only [invokeN, callback_function_t.invoke, schedule_function, Option.some_bind]
    rw [ih]
    simp [List.replicate_succ]

theorem invokeN_scheduled_accurate (cb : callback_function_t W) (n : Nat) (w : W)
    (q : List (callback_function_t W)) (rq : List (recurrent_function_t W × Nat)) :
    invokeN (callback_function_t.scheduled_accurate cb) n ⟨w, q, rq⟩
      = some ⟨w, q, rq ++ List.replicate n (recurrent_function_t.call_once cb, 0)⟩ := by
  induction n generalizing rq with
  | zero => simp [invokeN]
  | succ n ih =>
    simp only [invokeN, callback_function_t.invoke, schedule_recurrent_function_us,
      Option.some_bind]
    rw [ih]
    simp [List.replicate_succ]

theorem foldlM_invoke_fn (g : W → W) (n : Nat) (w : W)
    (q : List (callback_function_t W)) (rq : List (recurrent_function_t W × Nat)) :
    (List.replicate n (callback_function_t.fn g)).foldlM
        (fun acc cb => callback_function_t.invoke cb acc) (⟨w, q, rq⟩ : Sys W)
      = some ⟨g^[n] w, q, rq⟩ := by
  induction n generalizing w with
  | zero => rfl
  | succ n ih =>
    rw [List.replicate_succ, List.foldlM_cons]
    exact ih (g w)

theorem foldlM_recurrentStep_fn (g : W → W) (n : Nat) (w : W)
    (q : List (callback_function_t W)) (rq : List (recurrent_function_t W × Nat)) :
    (List.replicate n (recurrent_function_t.call_once (callback_function_t.fn g), 0)).foldlM
        recurrentStep (⟨w, q, rq⟩ : Sys W)
      = some ⟨g^[n] w, q, rq⟩ := by
  induction n generalizing w with
  | zero => rfl
  | succ n ih =>
    rw [List.replicate_succ, List.foldlM_cons]
    exact ih (g w)

theorem run_scheduled_functions_replicate (g : W → W) (n : Nat) (w : W)
    (rq : List (recurrent_function_t W × Nat)) :
    run_scheduled_functions ⟨w, List.replicate n (callback_function_t.fn g), rq⟩
      = some ⟨g^[n] w, [], rq⟩ :=
  foldlM_invoke_fn g n w [] rq

theorem yieldN_idle (k : Nat) (w : W) (q : List (callback_function_t W)) :
    yieldN k (⟨w, q, []⟩ : Sys W) = some ⟨w, q, []⟩ := by
  induction k with
  | zero => rfl
  | succ k ih =>
    simp only [yieldN, run_scheduled_recurrent_functions, List.foldlM_nil, Option.pure_def,
      Option.some_bind]
    exact ih

theorem yieldN_replicate (g : W → W) (n k : Nat) (w : W) (q : List (callback_function_t W)) :
    yieldN (k + 1)
        ⟨w, q, List.replicate n (recurrent_function_t.call_once (callback_function_t.fn g), 0)⟩
      = some ⟨g^[n] w, q, []⟩ := by
  simp only [yieldN, run_scheduled_recurrent_functions]
  rw [foldlM_recurrentStep_fn g n w q []]
  simp only [Option.some_bind]
  exact yieldN_idle k _ q

/-- One fire of a timer armed with the trampoline and the instance. -/
theorem fire_static (t : Ticker W) (s : Sys W) (ms : Nat) (rep : Bool)
    (h : t._etsTimer = some ⟨ms, rep, callback_with_arg_t._static_callback, t.self⟩) :
    fire t s = (t._callback_function.invoke s).map fun s1 =>
      ((if rep then t else { t with _etsTimer := none }), s1) := by
  unfold fire
  rw [h]
  cases rep <;> simp [_static_callback]

theorem fire_idle (t : Ticker W) (s : Sys W) (h : t._etsTimer = none) : fire t s = some (t, s) := by
  unfold fire
  rw [h]

theorem fireN_idle (n : Nat) (t : Ticker W) (s : Sys W) (h : t._etsTimer = none) :
    fireN n t s = some (t, s) := by
  induction n with
  | zero => rfl
  | succ n ih => simp only [fireN, fire_idle t s h, Option.some_bind, ih]

theorem fireN_periodic (n : Nat) (t : Ticker W) (s : Sys W) (ms : Nat)
    (h : t._etsTimer = some ⟨ms, true, callback_with_arg_t._static_callback, t.self⟩) :
    fireN n t s = (invokeN t._callback_function n s).map fun s1 => (t, s1) := by
  induction n generalizing s with
  | zero => rfl
  | succ n ih =>
    simp only [fireN, invokeN, fire_static t s ms true h, if_true]
    cases hi : t._callback_function.invoke s with
    | none => rfl
    | some s1 => simp only [Option.map_some', Option.some_bind, ih]

end Ticker

namespace Ticker

variable {W : Type}

/-- C5: a loop-granularity deferred registration stores the lambda that
enqueues `f`; one call of it (one fire) appends `f` once to the deferred queue
and leaves the world untouched; `f` runs when the queue is drained: `n` fires
followed by a drain are exactly `n` runs of `f` (runs are counted on a user
callable `g` acting on the user world). The millisecond overloads at every
`ms`, the seconds overloads at every `s` whose conversion to `uint32_t` is
defined. -/
theorem scheduled_registration_defers_to_drain (t : Ticker W) (f : callback_function_t W)
    (g : W → W) (ms n : Nat) (w : W)
    (q : List (callback_function_t W)) (rq : List (recurrent_function_t W × Nat)) :
    ((attach_ms_scheduled ms f t).1._callback_function = callback_function_t.scheduled f ∧
     (once_ms_scheduled ms f t).1._callback_function = callback_function_t.scheduled f) ∧
    (callback_function_t.scheduled f).invoke ⟨w, q, rq⟩ = some ⟨w, q ++ [f], rq⟩ ∧
    (fireN n (attach_ms_scheduled ms (callback_function_t.fn g) t).1 ⟨w, [], rq⟩).map Prod.snd
      = some ⟨w, List.replicate n (callback_function_t.fn g), rq⟩ ∧
    ((fireN n (attach_ms_scheduled ms (callback_function_t.fn g) t).1 ⟨w, [], rq⟩).bind
        fun p => run_scheduled_functions p.2) = some ⟨g^[n] w, [], rq⟩ ∧
    (fireN (n + 1) (once_ms_scheduled ms (callback_function_t.fn g) t).1 ⟨w, [], rq⟩).map Prod.snd
      = some ⟨w, [callback_function_t.fn g], rq⟩ ∧
    ((fireN (n + 1) (once_ms_scheduled ms (callback_function_t.fn g) t).1 ⟨w, [], rq⟩).bind
        fun p => run_scheduled_functions p.2) = some ⟨g w, [], rq⟩ ∧
    (∀ (s : F32) (d : Nat), F32.secondsToMs s = some d →
      (attach_scheduled s f t).map (fun o => o.1._callback_function)
        = some (callback_function_t.scheduled f) ∧
      (once_scheduled s f t).map (fun o => o.1._callback_function)
        = some (callback_function_t.scheduled f) ∧
      ((attach_scheduled s (callback_function_t.fn g) t).bind fun o =>
          (fireN n o.1 ⟨w, [], rq⟩).map Prod.snd)
        = some ⟨w, List.replicate n (callback_function_t.fn g), rq⟩ ∧
      ((attach_scheduled s (callback_function_t.fn g) t).bind fun o =>
          (fireN n o.1 ⟨w, [], rq⟩).bind fun p => run_scheduled_functions p.2)
        = some ⟨g^[n] w, [], rq⟩ ∧
      ((once_scheduled s (callback_function_t.fn g) t).bind fun o =>
          (fireN (n + 1) o.1 ⟨w, [], rq⟩).map Prod.snd)
        = some ⟨w, [callback_function_t.fn g], rq⟩ ∧
      ((once_scheduled s (callback_function_t.fn g) t).bind fun o =>
          (fireN (n + 1) o.1 ⟨w, [], rq⟩).bind fun p => run_scheduled_functions p.2)
        = some ⟨g w, [], rq⟩) := by
  have hper : ∀ m : Nat,
      fireN n (attach_ms_scheduled m (callback_function_t.fn g) t).1 ⟨w, [], rq⟩
        = some ((attach_ms_scheduled m (callback_function_t.fn g) t).1,
            ⟨w, List.replicate n (callback_function_t.fn g), rq⟩) := by
    intro m
    rw [fireN_periodic n _ _ m rfl]
    show (invokeN (callback_function_t.scheduled (callback_function_t.fn g)) n ⟨w, [], rq⟩).map _
      = _
    rw [invokeN_scheduled]
    rfl
  have hone : ∀ m : Nat,
      fireN (n + 1) (once_ms_scheduled m (callback_function_t.fn g) t).1 ⟨w, [], rq⟩
        = some ({ (once_ms_scheduled m (callback_function_t.fn g) t).1 with _etsTimer := none },
            ⟨w, [callback_function_t.fn g], rq⟩) := by
    intro m
    simp only [fireN]
    rw [fire_static _ _ m false rfl]
    show Option.bind (Option.map _
      ((callback_function_t.scheduled (callback_function_t.fn g)).invoke ⟨w, [], rq⟩)) _ = _
    simp only [callback_function_t.invoke, schedule_function, Option.map_some',
      Option.some_bind, List.nil_append, Bool.false_eq_true, if_false]
    exact fireN_idle n _ _ rfl
  have d1 : ∀ m : Nat,
      ((fireN n (attach_ms_scheduled m (callback_function_t.fn g) t).1 ⟨w, [], rq⟩).bind
        fun p => run_scheduled_functions p.2) = some ⟨g^[n] w, [], rq⟩ := by
    intro m
    rw [hper m]
    exact run_scheduled_functions_replicate g n w rq
  have d2 : ∀ m : Nat,
      ((fireN (n + 1) (once_ms_scheduled m (callback_function_t.fn g) t).1 ⟨w, [], rq⟩).bind
        fun p => run_scheduled_functions p.2) = some ⟨g w, [], rq⟩ := by
    intro m
    rw [hone m]
    exact run_scheduled_functions_replicate g 1 w rq
  refine ⟨⟨rfl, rfl⟩, rfl, ?_, d1 ms, ?_, d2 ms, ?_⟩
  · rw [hper ms]; rfl
  · rw [hone ms]; rfl
  · intro s d hs
    refine ⟨?_, ?_, ?_, ?_, ?_, ?_⟩
    · rw [attach_scheduled_of_ms s d f t hs]; rfl
    · rw [once_scheduled_of_ms s d f t hs]; rfl
    · rw [attach_scheduled_of_ms s d _ t hs, Option.some_bind, hper d]; rfl
    · rw [attach_scheduled_of_ms s d _ t hs, Option.some_bind]; exact d1 d
    · rw [once_scheduled_of_ms s d _ t hs, Option.some_bind, hone d]; rfl
    · rw [once_scheduled_of_ms s d _ t hs, Option.some_bind]; exact d2 d

theorem scheduled_registration_defers_to_drain_witness :
    F32.secondsToMs (F32.finite false 1 0) = some 1000 ∧
    ((fireN 3 (attach_ms_scheduled 16777217 (callback_function_t.fn Nat.succ) (new 64)).1
        ⟨0, [], []⟩).bind fun p => run_scheduled_functions p.2) = some ⟨Nat.succ^[3] 0, [], []⟩ ∧
    (attach_scheduled (F32.finite false 1 0) (callback_function_t.fn Nat.succ) (new 64)).map
        (fun o => o.1._callback_function)
      = some (callback_function_t.scheduled (callback_function_t.fn Nat.succ)) ∧
    ((attach_scheduled (F32.finite false 1 0) (callback_function_t.fn Nat.succ) (new 64)).bind
        fun o => (fireN 3 o.1 ⟨0, [], []⟩).bind fun p => run_scheduled_functions p.2)
      = some ⟨Nat.succ^[3] 0, [], []⟩ :=
  ⟨by decide,
    (scheduled_registration_defers_to_drain (new 64) (callback_function_t.fn Nat.succ) Nat.succ
      16777217 3 0 [] []).2.2.2.1,
    ((scheduled_registration_defers_to_drain (new 64) (callback_function_t.fn Nat.succ) Nat.succ
      16777217 3 0 [] []).2.2.2.2.2.2 (F32.finite false 1 0) 1000 (by decide)).1,
    ((scheduled_registration_defers_to_drain (new 64) (callback_function_t.fn Nat.succ) Nat.succ
      16777217 3 0 [] []).2.2.2.2.2.2 (F32.finite false 1 0) 1000 (by decide)).2.2.2.1⟩

/-- C6: `attach_ms_scheduled_accurate(ms, f)` stores the lambda that, when
called (one fire), leaves the world untouched and appends one recurrent entry
with interval 0 whose body calls `f` once and returns false; with the
recurrent queue dropping entries that return false, `n` fires lead to exactly
`n` runs of `f`, however many yield points follow. -/
theorem accurate_registration_runs_once_per_fire (t : Ticker W) (f : callback_function_t W)
    (g : W → W) (ms n k : Nat) (w : W) (sys : Sys W)
    (q : List (callback_function_t W)) (rq : List (recurrent_function_t W × Nat)) :
    (attach_ms_scheduled_accurate ms f t).1._callback_function
      = callback_function_t.scheduled_accurate f ∧
    (callback_function_t.scheduled_accurate f).invoke ⟨w, q, rq⟩
      = some ⟨w, q, rq ++ [(recurrent_function_t.call_once f, 0)]⟩ ∧
    (recurrent_function_t.call_once f).invoke sys = (f.invoke sys).map (fun s1 => (s1, false)) ∧
    (fireN n (attach_ms_scheduled_accurate ms (callback_function_t.fn g) t).1 ⟨w, q, []⟩).map
        Prod.snd
      = some ⟨w, q,
          List.replicate n (recurrent_function_t.call_once (callback_function_t.fn g), 0)⟩ ∧
    ((fireN n (attach_ms_scheduled_accurate ms (callback_function_t.fn g) t).1 ⟨w, q, []⟩).bind
        fun p => yieldN (k + 1) p.2) = some ⟨g^[n] w, q, []⟩ := by
  have hper : fireN n (attach_ms_scheduled_accurate ms (callback_function_t.fn g) t).1 ⟨w, q, []⟩
      = some ((attach_ms_scheduled_accurate ms (callback_function_t.fn g) t).1,
          ⟨w, q, List.replicate n
            (recurrent_function_t.call_once (callback_function_t.fn g), 0)⟩) := by
    rw [fireN_periodic n _ _ ms rfl]
    show (invokeN (callback_function_t.scheduled_accurate (callback_function_t.fn g)) n
      ⟨w, q, []⟩).map _ = _
    rw [invokeN_scheduled_accurate]
    rfl
  refine ⟨rfl, rfl, rfl, ?_, ?_⟩
  · rw [hper]; rfl
  · rw [hper]
    exact yieldN_replicate g n k w q

/-- C7: `detach` stops the external timer and clears the stored callback of
an active registration, is idempotent, and on an adapter with no active
registration changes nothing and issues nothing. -/
theorem detach_stops_clears_idempotent (t : Ticker W) :
    (detach t).1.active = false ∧
    (t.active = true →
      (detach t).1._callback_function = callback_function_t.nullptr ∧
      (detach t).2 = [TimerCall.stop]) ∧
    (detach (detach t).1).1 = (detach t).1 ∧
    (detach (detach t).1).2 = [] ∧
    (t.active = false → detach t = (t, [])) := by
  cases h : t._etsTimer with
  | none => simp [detach, active, h]
  | some r => simp [detach, active, h]

theorem detach_stops_clears_idempotent_witness :
    (attach_ms 20 (callback_function_t.fn Nat.succ) (new 64)).1.active = true ∧
    ((detach (attach_ms 20 (callback_function_t.fn Nat.succ) (new 64)).1).1._callback_function
        = callback_function_t.nullptr ∧
      (detach (attach_ms 20 (callback_function_t.fn Nat.succ) (new 64)).1).2
        = [TimerCall.stop]) ∧
    (new 64 : Ticker Nat).active = false ∧
    detach (new 64 : Ticker Nat) = (new 64, []) :=
  ⟨rfl,
    (detach_stops_clears_idempotent
      (attach_ms 20 (callback_function_t.fn Nat.succ) (new 64)).1).2.1 rfl,
    rfl, (detach_stops_clears_idempotent (new 64 : Ticker Nat)).2.2.2.2 rfl⟩

/-- C8: after a one-shot registration the first fire runs the callback
exactly once and leaves the adapter idle (`active()` is false); further fires
run nothing. Stated for `once_ms(d, f)` at every duration `d` and for
`once(s, f)` at every `s` whose conversion to `uint32_t` is defined; the
callbacks covered are the user callables `f = fn g` that act on the user world
only (a callback that itself registers or cancels on the adapter is outside
the statement). -/
theorem oneshot_runs_once_then_idle (t : Ticker W) (g : W → W) (d n : Nat) (w : W)
    (q : List (callback_function_t W)) (rq : List (recurrent_function_t W × Nat)) :
    (once_ms d (callback_function_t.fn g) t).1.active = true ∧
    (fireN (n + 1) (once_ms d (callback_function_t.fn g) t).1 ⟨w, q, rq⟩).map
        (fun p => (p.1.active, p.2)) = some (false, ⟨g w, q, rq⟩) ∧
    (∀ (s : F32) (m : Nat), F32.secondsToMs s = some m →
      (once s (callback_function_t.fn g) t).map (fun o => o.1.active) = some true ∧
      ((once s (callback_function_t.fn g) t).bind fun o =>
          (fireN (n + 1) o.1 ⟨w, q, rq⟩).map (fun p => (p.1.active, p.2)))
        = some (false, ⟨g w, q, rq⟩)) := by
  have hone : ∀ m : Nat,
      fireN (n + 1) (once_ms m (callback_function_t.fn g) t).1 ⟨w, q, rq⟩
        = some ({ (once_ms m (callback_function_t.fn g) t).1 with _etsTimer := none },
            ⟨g w, q, rq⟩) := by
    intro m
    simp only [fireN]
    rw [fire_static _ _ m false rfl]
    show Option.bind (Option.map _ ((callback_function_t.fn g).invoke ⟨w, q, rq⟩)) _ = _
    simp only [callback_function_t.invoke, Option.map_some', Option.some_bind,
      Bool.false_eq_true, if_false]
    exact fireN_idle n _ _ rfl
  refine ⟨rfl, ?_, ?_⟩
  · rw [hone d]; rfl
  · intro s m hs
    refine ⟨?_, ?_⟩
    · rw [once_of_ms s m _ t hs]; rfl
    · rw [once_of_ms s m _ t hs, Option.some_bind, hone m]; rfl

theorem oneshot_runs_once_then_idle_witness :
    F32.secondsToMs (F32.finite false 0 0) = some 0 ∧
    (fireN 1 (once_ms 0 (callback_function_t.fn fun _ => true) (new 64)).1 ⟨false, [], []⟩).map
        (fun p => (p.1.active, p.2)) = some (false, ⟨true, [], []⟩) ∧
    ((once (F32.finite false 0 0) (callback_function_t.fn fun _ => true) (new 64)).bind fun o =>
        (fireN 1 o.1 ⟨false, [], []⟩).map (fun p => (p.1.active, p.2)))
      = some (false, ⟨true, [], []⟩) :=
  ⟨by decide,
    (oneshot_runs_once_then_idle (new 64) (fun _ => true) 0 0 false [] []).2.1,
    ((oneshot_runs_once_then_idle (new 64) (fun _ => true) 0 0 false [] []).2.2
      (F32.finite false 0 0) 0 (by decide)).2⟩

/-- C10, the claim as stated fails: `s = 10737418 * 2^-31` (the largest
binary32 value below 0.005) has exact product `1000 * s = 4.99999988...`, whose
integer part is 4, but `attach(s, f)` starts the timer with 5 ms, because the
binary32 product `1000UL * s` is 5.0. -/
theorem seconds_conversion_rounds_before_truncating :
    F32.wf (F32.finite false 10737418 (-31)) ∧
    F32.specInRange (F32.finite false 10737418 (-31)) ∧
    F32.specMs (F32.finite false 10737418 (-31)) = 4 ∧
    attach (F32.finite false 10737418 (-31)) (callback_function_t.fn id) (new 64 : Ticker Unit)
      = some (attach_ms 5 (callback_function_t.fn id) (new 64)) ∧
    attach (F32.finite false 10737418 (-31)) (callback_function_t.fn id) (new 64 : Ticker Unit)
      ≠ some (attach_ms (F32.specMs (F32.finite false 10737418 (-31)))
          (callback_function_t.fn id) (new 64)) := by
  have h5 : F32.secondsToMs (F32.finite false 10737418 (-31)) = some 5 := by decide
  have h4 : F32.specMs (F32.finite false 10737418 (-31)) = 4 := by decide
  refine ⟨by decide, by decide, h4, attach_of_ms _ 5 _ _ h5, ?_⟩
  rw [attach_of_ms _ 5 _ _ h5, h4]
  intro h
  have h2 := congrArg (Option.map fun o => (issued o).map StartRequest.milliseconds) h
  simp only [Option.map_some', attach_ms, issued_attach_ms, List.map, Option.some.injEq,
    List.cons.injEq] at h2
  exact absurd h2.1 (by decide)

/-- C10 (amended): for every binary32 seconds value `s` with
`0 ≤ 1000*s < 2^32`, the conversion of `1000UL * s` to `uint32_t` is defined
and `attach`, `once`, `attach_scheduled`, `once_scheduled` at `s` are
`attach_ms`, `once_ms`, `attach_ms_scheduled`, `once_ms_scheduled` at `m`,
where `m` is the binary32 product `1000 * s` (rounded to nearest) with the
fractional part discarded; `m` is the integer part of the exact product when
that product needs no rounding, and `m = 0` for every `0 < s < 0.001`. -/
theorem seconds_entry_points_are_ms_entry_points (s : F32) (t : Ticker W)
    (f : callback_function_t W) (hwf : F32.wf s) (hr : F32.specInRange s) :
    ∃ m, F32.secondsToMs s = some m ∧ m < 2 ^ 32 ∧
      attach s f t = some (attach_ms m f t) ∧
      once s f t = some (once_ms m f t) ∧
      attach_scheduled s f t = some (attach_ms_scheduled m f t) ∧
      once_scheduled s f t = some (once_ms_scheduled m f t) ∧
      (F32.productExact s → m = F32.specMs s) ∧
      (F32.subMillisecond s → m = 0) := by
  obtain ⟨m, hm, hlt⟩ := F32.secondsToMs_defined s hwf hr
  refine ⟨m, hm, hlt, attach_of_ms s m f t hm, once_of_ms s m f t hm,
    attach_scheduled_of_ms s m f t hm, once_scheduled_of_ms s m f t hm, ?_, ?_⟩
  · intro hex
    have h := F32.secondsToMs_exact s hwf hr hex
    rw [hm] at h
    exact Option.some.inj h
  · intro hsub
    have h := F32.secondsToMs_subMillisecond s hwf hsub
    rw [hm] at h
    exact Option.some.inj h

theorem seconds_entry_points_are_ms_entry_points_witness :
    F32.wf (F32.finite false 3 (-1)) ∧ F32.specInRange (F32.finite false 3 (-1)) ∧
    (∃ m, F32.secondsToMs (F32.finite false 3 (-1)) = some m ∧ m < 2 ^ 32 ∧
      attach (F32.finite false 3 (-1)) (callback_function_t.fn Nat.succ) (new 64)
        = some (attach_ms m (callback_function_t.fn Nat.succ) (new 64)) ∧
      once (F32.finite false 3 (-1)) (callback_function_t.fn Nat.succ) (new 64)
        = some (once_ms m (callback_function_t.fn Nat.succ) (new 64)) ∧
      attach_scheduled (F32.finite false 3 (-1)) (callback_function_t.fn Nat.succ) (new 64)
        = some (attach_ms_scheduled m (callback_function_t.fn Nat.succ) (new 64)) ∧
      once_scheduled (F32.finite false 3 (-1)) (callback_function_t.fn Nat.succ) (new 64)
        = some (once_ms_scheduled m (callback_function_t.fn Nat.succ) (new 64)) ∧
      (F32.productExact (F32.finite false 3 (-1)) → m = F32.specMs (F32.finite false 3 (-1))) ∧
      (F32.subMillisecond (F32.finite false 3 (-1)) → m = 0)) :=
  ⟨by decide, by decide,
    seconds_entry_points_are_ms_entry_points (F32.finite false 3 (-1)) (new 64)
      (callback_function_t.fn Nat.succ) (by decide) (by decide)⟩

end Ticker
